import Mathlib

/-!
Shallow embedding of the bot-coordination core of `src/main.py`
(the `ibce-bots` repository): the message codec, the `MessageHub`
recency store, and the `ComState` coordination state machine with its
`parse_bot_com`, `ensure_display`, `ensure_display_backup` and
`self_promote` operations.

Modelling conventions:
* Python `int` is Lean `Int`; instance ids and versions are `Int`.
* Wall-clock timestamps (`datetime.datetime.now()`) are integer
  seconds; each operation that reads the clock takes the current time
  `now` as a parameter.  The claims only involve order comparisons
  between timestamps and integer windows, so sub-second resolution is
  irrelevant to them.
* Python exceptions are modelled explicitly: an operation returns the
  state as mutated up to the raise point together with an optional
  `PyErr`.  Mutations performed before a raise persist, as in Python.
* Side effects other than `ComState` mutation (awaiting a wrapped
  action, sending on the com channel, cancelling a timed callback,
  the database/workspace file writes, `update_source_and_reset`) are
  recorded in an ordered event trace.
* Python `float` values are carried by their textual form (`str` of a
  float); `float()` applied to text is modelled as wrapping the text.
  No claim below depends on distinguishing two textual forms of the
  same float or on `float()` rejecting non-numeric text.
-/

/-- Python exceptions that the modelled code can raise. `nonTermination`
is not a Python exception: it marks fuel exhaustion of the model of the
callback-drain loop in `ensure_display_backup`, whose source iterates a
list that the loop body may append to. -/
inductive PyErr
  | indexError
  | valueError
  | keyError
  | typeError
  | assertionError
  | nonTermination
deriving DecidableEq, Repr

/-- A value that `ensure_display` can encode: Python float (kept as its
textual form), int, or string. A missing value (`None`) is `Option.none`
at use sites. -/
inductive PyValue
  | vf (text : String)
  | vi (n : Int)
  | vs (s : String)
deriving DecidableEq, Repr

instance {ε α : Type _} [DecidableEq ε] [DecidableEq α] :
    DecidableEq (Except ε α) := fun x y =>
  match x, y with
  | .ok a, .ok b => decidable_of_iff (a = b) (by simp)
  | .ok _, .error _ => isFalse (by simp)
  | .error _, .ok _ => isFalse (by simp)
  | .error e, .error f => decidable_of_iff (e = f) (by simp)

/-- The digit character of `d`, meaningful for `d < 10`. -/
def digitChar (d : Nat) : Char := Char.ofNat (48 + d)

/-- The numeric value of a decimal digit character, if it is one. -/
def digitVal (c : Char) : Option Nat :=
  if '0' ≤ c ∧ c ≤ '9' then some (c.toNat - 48) else none

/-- Decimal digits of `n`, most significant first, with structural
fuel (any `fuel > n` is enough). -/
def natToDigitsAux : Nat → Nat → List Char
  | 0, _ => []
  | fuel + 1, n =>
    if n < 10 then [digitChar n]
    else natToDigitsAux fuel (n / 10) ++ [digitChar (n % 10)]

/-- Decimal digits of `n`, most significant first. Models Python
`str` on a non-negative int. -/
def natToDigits (n : Nat) : List Char := natToDigitsAux (n + 1) n

/-- Left fold of decimal digits onto an accumulator; `none` on the
first non-digit character. -/
def digitsToNat? (acc : Nat) : List Char → Option Nat
  | [] => some acc
  | c :: rest =>
    match digitVal c with
    | none => none
    | some d => digitsToNat? (acc * 10 + d) rest

/-- Models Python `int()` on a string of decimal digits (the forms the
protocol itself produces; `int()`'s tolerance of surrounding whitespace,
a leading `+`, or `_` separators is not needed by any claim). -/
def natParseList? (l : List Char) : Option Nat :=
  match l with
  | [] => none
  | _ :: _ => digitsToNat? 0 l

/-- Models Python `int()` including a leading minus sign. -/
def intParseList? (l : List Char) : Option Int :=
  match l with
  | [] => none
  | c :: rest =>
    if c = '-' then (natParseList? rest).map (fun n => -(n : Int))
    else (natParseList? (c :: rest)).map (fun n => (n : Int))

/-- Models Python `int()` on a `str`. -/
def intParse? (s : String) : Option Int := intParseList? s.data

/-- Models Python `str` on an int. -/
def intPrintList (i : Int) : List Char :=
  if i < 0 then '-' :: natToDigits i.natAbs else natToDigits i.natAbs

/-- Models Python `str` on an int, as a `String`. -/
def intPrint (i : Int) : String := String.mk (intPrintList i)

/-- Models Python `str.split(sep)` for a one-character separator. -/
def splitOnChar (sep : Char) : List Char → List (List Char)
  | [] => [[]]
  | c :: rest =>
    if c = sep then [] :: splitOnChar sep rest
    else
      match splitOnChar sep rest with
      | [] => [[c]]
      | h :: t => (c :: h) :: t

/-- `parse_ensure_display_value` from `src/main.py` (lines 68-83):
split the payload on `"="`; `kv[1]` raises `IndexError` when there is
no separator; an empty value segment means no value; otherwise the
first character is the type tag (`f`/`i`/`s`), anything else raises
`ValueError`; a non-numeric `i` body raises `ValueError` from `int()`. -/
def parse_ensure_display_value (message : String) :
    Except PyErr (String × Option PyValue) :=
  match splitOnChar '=' message.data with
  | [] => .error .indexError
  | [_] => .error .indexError
  | k :: v1 :: _ =>
    match v1 with
    | [] => .ok (String.mk k, none)
    | c :: rest =>
      if c = 'f' then .ok (String.mk k, some (.vf (String.mk rest)))
      else if c = 'i' then
        match intParseList? rest with
        | some n => .ok (String.mk k, some (.vi n))
        | none => .error .valueError
      else if c = 's' then .ok (String.mk k, some (.vs (String.mk rest)))
      else .error .valueError

/-- The ENSURE_DISPLAY payload built by the master path of
`ComState.ensure_display` (lines 295-309): empty when no
`return_name`; otherwise `name=` followed by the tagged value (`f`/`i`/
`s` then its `str`), or nothing after `=` when the result is `None`. -/
def encode_ensure_display (return_name : Option String)
    (result : Option PyValue) : String :=
  match return_name with
  | none => ""
  | some name =>
    String.mk (name.data ++ '=' ::
      (match result with
       | none => []
       | some (.vf text) => 'f' :: text.data
       | some (.vi n) => 'i' :: intPrintList n
       | some (.vs s) => 's' :: s.data))

/-- The `MessageType` enum of `src/main.py` (lines 50-59). -/
inductive MessageType
  | connect
  | connectack
  | letmaster
  | ensure
  | senddb
  | senddback
  | sendws
  | sendwsack
deriving DecidableEq, Repr, Fintype

/-- The wire string of a `MessageType` (the enum's `.value`). -/
def MessageType.value : MessageType → String
  | .connect => "connect"
  | .connectack => "connectack"
  | .letmaster => "letmaster"
  | .ensure => "ensure"
  | .senddb => "senddb"
  | .senddback => "senddback"
  | .sendws => "sendws"
  | .sendwsack => "sendwsack"

/-- Models the `MessageType(...)` enum constructor: `some` for each
member's value, `none` (a Python `ValueError`) otherwise. -/
def messageTypeOf? (s : String) : Option MessageType :=
  if s = "connect" then some .connect
  else if s = "connectack" then some .connectack
  else if s = "letmaster" then some .letmaster
  else if s = "ensure" then some .ensure
  else if s = "senddb" then some .senddb
  else if s = "senddback" then some .senddback
  else if s = "sendws" then some .sendws
  else if s = "sendwsack" then some .sendwsack
  else none

/-- The `Message` dataclass (lines 62-65): a received payload with the
time it was recorded. -/
structure Message where
  timestamp : Int
  message : String
deriving DecidableEq, Repr

/-- `MessageHub` (lines 86-127): one bounded-recency queue per message
kind. -/
structure MessageHub where
  message_queues : MessageType → List Message

instance : DecidableEq MessageHub := fun a b =>
  decidable_of_iff (∀ t, a.message_queues t = b.message_queues t)
    (by
      constructor
      · intro h
        cases a
        cases b
        simp only [MessageHub.mk.injEq]
        exact funext h
      · intro h t
        rw [h])

/-- `MessageHub.MAX_AGE_SECONDS = 5 * 60`. -/
def MAX_AGE_SECONDS : Int := 5 * 60

/-- `MessageHub.on_message` (lines 96-109): append the message to its
kind's queue at the current time, then purge every queue of entries not
strictly newer than `now - MAX_AGE_SECONDS`. -/
def MessageHub.on_message (hub : MessageHub) (now : Int)
    (message_type : MessageType) (message : String) : MessageHub :=
  let appended : MessageType → List Message := fun t =>
    if t = message_type then hub.message_queues t ++ [⟨now, message⟩]
    else hub.message_queues t
  ⟨fun t => (appended t).filter (fun m => now - MAX_AGE_SECONDS < m.timestamp)⟩

/-- The scan of `MessageHub.got_message` when a `return_name` is given
(lines 122-127): walk the in-window messages; skip empty payloads;
decode the rest (propagating decode exceptions); succeed on the first
whose key equals the name. -/
def findEnsureName (name : String) : List Message → Except PyErr Bool
  | [] => .ok false
  | m :: rest =>
    if m.message = "" then findEnsureName name rest
    else
      match parse_ensure_display_value m.message with
      | .error e => .error e
      | .ok kv => if kv.1 = name then .ok true else findEnsureName name rest

/-- `MessageHub.got_message` (lines 111-127): is there a message of the
given kind with timestamp strictly within `window_seconds` of now?
With a `return_name`, the kind must be ENSURE_DISPLAY (`assert`), and
only in-window entries with non-empty payload decoding to that key
count. -/
def MessageHub.got_message (hub : MessageHub) (now : Int)
    (message_type : MessageType) (window_seconds : Int)
    (return_name : Option String) : Except PyErr Bool :=
  let cutoff := now - window_seconds
  let messages_in_window :=
    (hub.message_queues message_type).filter (fun m => cutoff < m.timestamp)
  match return_name with
  | none => .ok (decide (0 < messages_in_window.length))
  | some name =>
    if message_type = .ensure then findEnsureName name messages_in_window
    else .error .assertionError

/-- A positional argument held by a `functools.partial` stored in a
`TimedCallback`: the `ComState` object itself (the call sites pass
`self` as an extra positional argument to an already-bound method), a
coroutine function identified by an opaque id, or any other opaque
value. -/
inductive PyObj
  | comState
  | callable (a : Nat)
  | arg (v : Nat)
deriving DecidableEq, Repr

/-- A pending `TimedCallback`, by what its stored partial would call:
`promote` for `TimedCallback(3, self.self_promote, self)` appended by
`ComState.connect` (line 171); `backup stored window return_name` for
`TimedCallback(window, self.ensure_display_backup, self, func, *args,
window=window, return_name=return_name)` appended by the follower path
of `ensure_display` (line 317), with `stored` the positional argument
list `self, func, *args` of the partial. -/
inductive Callback
  | promote
  | backup (stored : List PyObj) (window : Int) (return_name : Option String)
deriving DecidableEq, Repr

/-- A message sent on the com channel by `ComState.com` (lines
173-184): sender id, recipient id (`-1` broadcasts), kind, payload, and
whether a file is attached. -/
structure Envelope where
  fromId : Int
  toId : Int
  kind : MessageType
  payload : String
  file : Bool
deriving DecidableEq, Repr

/-- One observable side effect, in execution order: awaiting a wrapped
action, a com-channel send, a `TimedCallback.cancel()`, the
`update_source_and_reset` call, a database file replacement
(`update_db`), or a workspace apply (`update_workspace`). -/
inductive Event
  | act (a : Nat)
  | send (e : Envelope)
  | cancelCb (c : Callback)
  | sourceReset
  | dbUpdate
  | wsUpdate
deriving DecidableEq, Repr

/-- `ComState` (lines 140-158).  `env` models the module `globals()`
namespace as written by the protocol (`globals()[name] = value` for
ENSURE_DISPLAY return values); the discord `com_channel` handle is not
modelled. -/
structure ComState where
  initialized : Bool
  im_master : Bool
  alive_instances : Finset Int
  master_instance : Option Int
  callbacks : List Callback
  message_hub : MessageHub
  is_master_timeout : Bool
  env : List (String × Option PyValue)
deriving DecidableEq

/-- `ComState.__init__` (lines 150-158): everything empty, not master,
`is_master_timeout = False`. -/
def ComState.init : ComState where
  initialized := false
  im_master := false
  alive_instances := ∅
  master_instance := none
  callbacks := []
  message_hub := ⟨fun _ => []⟩
  is_master_timeout := false
  env := []

/-- The statically configured constants of an instance (`BOT_ID`,
`VERSION`) together with the semantics of wrapped actions: `actRes a`
is the value the coroutine identified by `a` returns when awaited. -/
structure Params where
  botId : Int
  version : Int
  actRes : Nat → Option PyValue

/-- The outcome of one modelled operation: the state as mutated up to
normal return or up to the raise point, the ordered side-effect trace,
and the exception if one was raised. -/
structure Step where
  s : ComState
  trace : List Event
  err : Option PyErr
deriving DecidableEq

/-- Python `dict`-style upsert for the modelled `globals()` bindings. -/
def envSet (env : List (String × Option PyValue)) (k : String)
    (v : Option PyValue) : List (String × Option PyValue) :=
  match env with
  | [] => [(k, v)]
  | (k0, v0) :: rest =>
    if k0 = k then (k0, v) :: rest else (k0, v0) :: envSet rest k v

/-- Lookup in the modelled `globals()` bindings. -/
def envLookup (env : List (String × Option PyValue)) (k : String) :
    Option (Option PyValue) :=
  match env with
  | [] => none
  | (k0, v0) :: rest => if k0 = k then some v0 else envLookup rest k

/-- Python `set.remove`: `KeyError` when the element is absent. -/
def pyRemove (s : Finset Int) (x : Int) : Except PyErr (Finset Int) :=
  if x ∈ s then .ok (s.erase x) else .error .keyError

/-- Python `max` on a set of ints: `ValueError` when empty. -/
def pyMax (s : Finset Int) : Except PyErr Int :=
  match s.max with
  | none => .error .valueError
  | some m => .ok m

/-- `ComState.self_promote` (lines 260-268): mark initialized, become
master, point the master pointer at self, ensure self is in the
membership set, broadcast LET_MASTER. -/
def self_promote (P : Params) (s : ComState) : ComState × List Event :=
  ({ s with
      initialized := true
      im_master := true
      master_instance := some P.botId
      alive_instances := insert P.botId s.alive_instances },
   [Event.send ⟨P.botId, -1, .letmaster, "", false⟩])

/-- `ComState.ensure_display` (lines 292-317). Master: await the
wrapped `func` (a `TypeError` if it is not callable — which is what the
backup-callback path passes, see `Callback.backup`), bind the result
under `return_name` in `globals()`, broadcast ENSURE_DISPLAY with the
encoded payload. Follower: if no ENSURE_DISPLAY is in the hub within
`window` (matching `return_name` if given), append a backup
`TimedCallback` whose partial stores `(self, func, *args)`. -/
def ensure_display (P : Params) (now : Int) (s : ComState) (func : PyObj)
    (args : List PyObj) (window : Int) (return_name : Option String) : Step :=
  if s.im_master then
    match func with
    | .callable a =>
      let result := P.actRes a
      let s1 :=
        match return_name with
        | none => s
        | some name => { s with env := envSet s.env name result }
      let message := encode_ensure_display return_name result
      ⟨s1,
       [Event.act a, Event.send ⟨P.botId, -1, .ensure, message, false⟩],
       none⟩
    | _ => ⟨s, [], some .typeError⟩
  else
    match s.message_hub.got_message now .ensure window return_name with
    | .error e => ⟨s, [], some e⟩
    | .ok true => ⟨s, [], none⟩
    | .ok false =>
      ⟨{ s with callbacks := s.callbacks ++
          [Callback.backup (PyObj.comState :: func :: args) window return_name] },
       [], none⟩

/-- The eviction step of `ComState.ensure_display_backup` (lines
274-278): if the master pointer is set, remove it from the membership
set (`KeyError` when absent) and clear the pointer; otherwise remove
the numerically-largest member (`ValueError` from `max` on an empty
set). -/
def failover_removed (s : ComState) : Except PyErr ComState :=
  match s.master_instance with
  | none =>
    match pyMax s.alive_instances with
    | .error e => .error e
    | .ok mx =>
      match pyRemove s.alive_instances mx with
      | .error e => .error e
      | .ok A => .ok { s with alive_instances := A }
  | some m =>
    match pyRemove s.alive_instances m with
    | .error e => .error e
    | .ok A => .ok { s with alive_instances := A, master_instance := none }

/-- One pending coordination computation for the structural engine
`coordRun`: a call of `ensure_display_backup`, the position-indexed
callback-drain loop inside it, or the firing of one stored callback. -/
inductive CoordCall
  | edb (func : PyObj) (args : List PyObj) (window : Int)
      (return_name : Option String)
  | drainLoop (i : Nat)
  | fire (cb : Callback)

/-- The mutually recursive trio `ensure_display_backup` / its
callback-drain loop / callback firing, as one function structurally
recursive on `fuel` (every nested call costs one unit; exhaustion —
possible only because the source's drain loop iterates a list its body
may append to — yields the marker error `nonTermination`; any
sufficiently large fuel gives the source behaviour).

`CoordCall.edb` is `ComState.ensure_display_backup` (lines 270-290):
if `is_master_timeout` is set, evict the master pointer's id from the
membership set (clearing the pointer) or, if the pointer is unset, the
numerically-largest member; self-promote when the largest remaining
member is self; clear the guard; re-fire every pending callback;
finally restore the guard (skipped when an invoked callback raised,
since the exception propagates). Otherwise: plain `ensure_display`.

`CoordCall.drainLoop i` is the loop `for callback in self.callbacks:
callback.cancel(); await callback.callback()` (lines 285-287) from
position `i`, iterating by position over the live list so that entries
appended by an invoked callback are visited too.

`CoordCall.fire cb` invokes a pending callback's stored partial.
`promote` calls the bound method `self.self_promote` with the extra
positional argument `self` (line 171) — a `TypeError` before the body
runs.  `backup` calls the bound `self.ensure_display_backup` with
stored positionals `(self, func, *args)`, so the method's `func`
parameter receives the first stored object and the rest become
`*args`. -/
def coordRun (P : Params) (now : Int) : Nat → ComState → CoordCall → Step
  | 0, s, _ => ⟨s, [], some .nonTermination⟩
  | fuel + 1, s, c =>
    match c with
    | .edb func args window return_name =>
      if s.is_master_timeout then
        match failover_removed s with
        | .error e => ⟨s, [], some e⟩
        | .ok s1 =>
          match pyMax s1.alive_instances with
          | .error e => ⟨s1, [], some e⟩
          | .ok mx2 =>
            let pr := if mx2 = P.botId then self_promote P s1 else (s1, [])
            let s3 := { pr.1 with is_master_timeout := false }
            let r := coordRun P now fuel s3 (.drainLoop 0)
            match r.err with
            | some e => ⟨r.s, pr.2 ++ r.trace, some e⟩
            | none =>
              ⟨{ r.s with is_master_timeout := true }, pr.2 ++ r.trace, none⟩
      else
        ensure_display P now s func args window return_name
    | .drainLoop i =>
      if h : i < s.callbacks.length then
        let cb := s.callbacks.get ⟨i, h⟩
        let r := coordRun P now fuel s (.fire cb)
        match r.err with
        | some e => ⟨r.s, Event.cancelCb cb :: r.trace, some e⟩
        | none =>
          let r2 := coordRun P now fuel r.s (.drainLoop (i + 1))
          ⟨r2.s, Event.cancelCb cb :: (r.trace ++ r2.trace), r2.err⟩
      else ⟨s, [], none⟩
    | .fire cb =>
      match cb with
      | .promote => ⟨s, [], some .typeError⟩
      | .backup stored window return_name =>
        match stored with
        | [] => ⟨s, [], some .typeError⟩
        | f :: rest => coordRun P now fuel s (.edb f rest window return_name)

/-- `ComState.ensure_display_backup` (lines 270-290); see `coordRun`. -/
def ensure_display_backup (P : Params) (now : Int) (fuel : Nat)
    (s : ComState) (func : PyObj) (args : List PyObj) (window : Int)
    (return_name : Option String) : Step :=
  coordRun P now fuel s (.edb func args window return_name)

/-- The callback-drain loop of `ensure_display_backup` (lines 285-287)
from position `i`; see `coordRun`. -/
def drainFrom (P : Params) (now : Int) (fuel : Nat) (s : ComState)
    (i : Nat) : Step :=
  coordRun P now fuel s (.drainLoop i)

/-- The timer of a pending `TimedCallback` expiring and invoking the
stored partial; see `coordRun`. -/
def fireCallback (P : Params) (now : Int) (fuel : Nat) (s : ComState)
    (cb : Callback) : Step :=
  coordRun P now fuel s (.fire cb)

/-- `ComState.parse_bot_com` (lines 186-257).  Each branch mutates the
state and emits its sends; the common tail records the message in the
hub, and is skipped when the branch raised (the exception propagates
first).  `update_source_and_reset` is recorded as `Event.sourceReset`
and the model continues past it (with `REBOOT_ON_UPDATE` the process
would instead restart; no claim exercises that).  File and network
faults of `send_db`/`send_workspace`/`update_db`/`update_workspace` are
not modelled. -/
def parse_bot_com (P : Params) (now : Int) (s : ComState) (from_id : Int)
    (message_type : MessageType) (message : String) (attachment : Bool) :
    Step :=
  match message_type with
  | .connect =>
    let ackSends :=
      if s.im_master then
        [Event.send ⟨P.botId, from_id, .connectack, intPrint P.version ++ "+", false⟩,
         Event.send ⟨P.botId, from_id, .senddb, "", true⟩,
         Event.send ⟨P.botId, from_id, .sendws, "", true⟩]
      else
        [Event.send ⟨P.botId, from_id, .connectack, intPrint P.version, false⟩]
    match intParse? message with
    | none => ⟨s, ackSends, some .valueError⟩
    | some version =>
      let s1 :=
        if version = P.version ∨ P.version < version then
          { s with alive_instances := insert from_id s.alive_instances }
        else s
      let tr := ackSends ++ (if P.version < version then [Event.sourceReset] else [])
      ⟨{ s1 with message_hub := s1.message_hub.on_message now .connect message },
       tr, none⟩
  | .connectack =>
    match message.data.getLast? with
    | none => ⟨s, [], some .indexError⟩
    | some c =>
      let s1 :=
        if c = '+' then
          { s with
              alive_instances := insert P.botId s.alive_instances
              master_instance := some from_id
              callbacks := [] }
        else s
      let tr1 := if c = '+' then s.callbacks.map Event.cancelCb else []
      let message_trim :=
        if c = '+' then String.mk message.data.dropLast else message
      match intParse? message_trim with
      | none => ⟨s1, tr1, some .valueError⟩
      | some _version =>
        let s2 := { s1 with alive_instances := insert from_id s1.alive_instances }
        ⟨{ s2 with message_hub := s2.message_hub.on_message now .connectack message },
         tr1, none⟩
  | .letmaster =>
    let s1 := { s with im_master := false, master_instance := some from_id }
    ⟨{ s1 with message_hub := s1.message_hub.on_message now .letmaster message },
     [], none⟩
  | .ensure =>
    let tr1 := s.callbacks.map Event.cancelCb
    let s1 := { s with callbacks := ([] : List Callback) }
    let parsed : Except PyErr ComState :=
      if message = "" then .ok s1
      else
        match parse_ensure_display_value message with
        | .error e => .error e
        | .ok kv => .ok { s1 with env := envSet s1.env kv.1 kv.2 }
    match parsed with
    | .error e => ⟨s1, tr1, some e⟩
    | .ok s2 =>
      let evicted : Except PyErr ComState :=
        if s2.master_instance ≠ some from_id then
          match s2.master_instance with
          | some m =>
            match pyRemove s2.alive_instances m with
            | .error e => .error e
            | .ok A =>
              .ok { s2 with alive_instances := A, master_instance := some from_id }
          | none => .ok { s2 with master_instance := some from_id }
        else .ok s2
      match evicted with
      | .error e => ⟨s2, tr1, some e⟩
      | .ok s3 =>
        ⟨{ s3 with message_hub := s3.message_hub.on_message now .ensure message },
         tr1, none⟩
  | .senddb =>
    if attachment then
      ⟨{ s with message_hub := s.message_hub.on_message now .senddb message },
       [Event.dbUpdate, Event.send ⟨P.botId, from_id, .senddback, "", false⟩],
       none⟩
    else ⟨s, [], some .assertionError⟩
  | .senddback =>
    ⟨{ s with message_hub := s.message_hub.on_message now .senddback message },
     [], none⟩
  | .sendws =>
    if attachment then
      ⟨{ s with
          initialized := true
          message_hub := s.message_hub.on_message now .sendws message },
       [Event.wsUpdate, Event.send ⟨P.botId, from_id, .sendwsack, "", false⟩],
       none⟩
    else ⟨s, [], some .assertionError⟩
  | .sendwsack =>
    ⟨{ s with message_hub := s.message_hub.on_message now .sendwsack message },
     [], none⟩

/-- The bot-com part of the discord `on_message` event handler (lines
642-668), modelled from the point where the message is known to be
self-authored on the com channel: split the content on `"/"`; with any
field count other than four, log and return (no state change, no
raise); otherwise decode the three header fields (`int()` and
`MessageType()` raise `ValueError` on bad text) and dispatch to
`parse_bot_com` when the envelope is from another instance and
addressed to this one or broadcast. -/
def on_message (P : Params) (now : Int) (s : ComState) (content : String)
    (attachment : Bool) : Step :=
  let message_split := splitOnChar '/' content.data
  if message_split.length ≠ 4 then ⟨s, [], none⟩
  else
    match intParseList? (message_split.getD 0 []) with
    | none => ⟨s, [], some .valueError⟩
    | some from_id =>
      match intParseList? (message_split.getD 1 []) with
      | none => ⟨s, [], some .valueError⟩
      | some to_id =>
        match messageTypeOf? (String.mk (message_split.getD 2 [])) with
        | none => ⟨s, [], some .valueError⟩
        | some message_type =>
          let msgContent := String.mk (message_split.getD 3 [])
          if from_id ≠ P.botId ∧ (to_id = -1 ∨ to_id = P.botId) then
            parse_bot_com P now s from_id message_type msgContent attachment
          else ⟨s, [], none⟩

/-- `ComState.connect` (lines 160-171), after the com channel is
resolved: broadcast CONNECT with the version and append the 3-second
self-promotion `TimedCallback`. -/
def connect (P : Params) (s : ComState) : Step :=
  ⟨{ s with callbacks := s.callbacks ++ [Callback.promote] },
   [Event.send ⟨P.botId, -1, .connect, intPrint P.version, false⟩],
   none⟩

/-- The coordination state a re-delivery must not change (claim C4):
membership set, master pointer, `im_master`, callback list. -/
def coordProj (s : ComState) :
    Finset Int × Option Int × Bool × List Callback :=
  (s.alive_instances, s.master_instance, s.im_master, s.callbacks)

/-- Stated from the spec (§4.5 follower path): the restriction a hub
entry must satisfy when a `return_name` is given — non-empty payload
whose decoded key equals the name. -/
def specKeyMatches (return_name : Option String) (m : Message) : Prop :=
  match return_name with
  | none => True
  | some name =>
    m.message ≠ "" ∧
      (parse_ensure_display_value m.message).toOption.map Prod.fst = some name

instance : (return_name : Option String) → (m : Message) →
    Decidable (specKeyMatches return_name m)
  | none, _ => .isTrue (by simp [specKeyMatches])
  | some name, m =>
    decidable_of_iff
      (m.message ≠ "" ∧
        (parse_ensure_display_value m.message).toOption.map Prod.fst = some name)
      (by simp [specKeyMatches])

/-- Stated from the spec (§4.5 follower path): the Message Hub holds an
ENSURE_DISPLAY entry with timestamp within `window` seconds of `now`,
restricted, when `return_name` is given, to entries with non-empty
payload whose decoded key equals `return_name`. -/
def specSeenWithin (hub : MessageHub) (now : Int) (window : Int)
    (return_name : Option String) : Prop :=
  ∃ m ∈ hub.message_queues .ensure,
    now - window < m.timestamp ∧ specKeyMatches return_name m

instance (hub : MessageHub) (now : Int) (window : Int)
    (return_name : Option String) :
    Decidable (specSeenWithin hub now window return_name) := by
  unfold specSeenWithin
  infer_instance

/-- Whether a trace contains a LET_MASTER broadcast (the observable
mark of a self-promotion). -/
def broadcastsLetMaster (trace : List Event) : Bool :=
  trace.any (fun e =>
    match e with
    | .send env => decide (env.kind = .letmaster)
    | _ => false)

/-! ## Lemmas about the decimal codec -/

theorem digitVal_digitChar (d : Nat) (h : d < 10) :
    digitVal (digitChar d) = some d := by
  interval_cases d <;> decide

theorem digitChar_not_special (d : Nat) (h : d < 10) :
    digitChar d ≠ '-' ∧ digitChar d ≠ '=' ∧ digitChar d ≠ '+' := by
  interval_cases d <;> refine ⟨?_, ?_, ?_⟩ <;> decide

theorem digitsToNat?_append (l1 l2 : List Char) (acc : Nat) :
    digitsToNat? acc (l1 ++ l2) =
      (digitsToNat? acc l1).bind (fun m => digitsToNat? m l2) := by
  induction l1 generalizing acc with
  | nil => rfl
  | cons c rest ih =>
    simp only [List.cons_append, digitsToNat?]
    cases h : digitVal c with
    | none => rfl
    | some d => exact ih _

theorem natToDigitsAux_stable : ∀ fuel1 fuel2 n, n < fuel1 → n < fuel2 →
    natToDigitsAux fuel1 n = natToDigitsAux fuel2 n := by
  intro fuel1
  induction fuel1 with
  | zero => intro fuel2 n h1 _; omega
  | succ f ih =>
    intro fuel2 n h1 h2
    cases fuel2 with
    | zero => omega
    | succ g =>
      by_cases h : n < 10
      · simp [natToDigitsAux, h]
      · simp only [natToDigitsAux, if_neg h]
        rw [ih g (n / 10) (by omega) (by omega)]

/-- The one-step unfolding of `natToDigits`, fuel eliminated. -/
theorem natToDigits_eq (n : Nat) :
    natToDigits n =
      if n < 10 then [digitChar n]
      else natToDigits (n / 10) ++ [digitChar (n % 10)] := by
  show natToDigitsAux (n + 1) n = _
  by_cases h : n < 10
  · simp [natToDigitsAux, h]
  · simp only [natToDigitsAux, if_neg h]
    congr 1
    exact natToDigitsAux_stable n (n / 10 + 1) (n / 10) (by omega) (by omega)

theorem natToDigits_ne_nil (n : Nat) : natToDigits n ≠ [] := by
  rw [natToDigits_eq]
  split <;> simp

theorem digitsToNat?_natToDigits (n : Nat) : ∀ acc,
    digitsToNat? acc (natToDigits n) =
      some (acc * 10 ^ (natToDigits n).length + n) := by
  induction n using Nat.strong_induction_on with
  | _ n ih =>
    intro acc
    rw [natToDigits_eq]
    by_cases h : n < 10
    · simp only [if_pos h, digitsToNat?, digitVal_digitChar n h,
        List.length_singleton, pow_one]
    · simp only [if_neg h]
      rw [digitsToNat?_append,
        ih (n / 10) (Nat.div_lt_self (by omega) (by omega))]
      simp only [Option.bind_some, digitsToNat?,
        digitVal_digitChar (n % 10) (Nat.mod_lt n (by omega)),
        List.length_append, List.length_singleton, pow_succ]
      rw [← mul_assoc]
      generalize acc * 10 ^ (natToDigits (n / 10)).length = A
      show some ((A + n / 10) * 10 + n % 10) = some (A * 10 + n)
      congr 1
      omega

theorem natToDigits_all_digits (n : Nat) :
    ∀ c ∈ natToDigits n, ∃ d, d < 10 ∧ c = digitChar d := by
  induction n using Nat.strong_induction_on with
  | _ n ih =>
    intro c hc
    rw [natToDigits_eq] at hc
    by_cases h : n < 10
    · rw [if_pos h] at hc
      simp only [List.mem_singleton] at hc
      exact ⟨n, h, hc⟩
    · rw [if_neg h] at hc
      rcases List.mem_append.mp hc with h1 | h2
      · exact ih (n / 10) (Nat.div_lt_self (by omega) (by omega)) c h1
      · simp only [List.mem_singleton] at h2
        exact ⟨n % 10, Nat.mod_lt n (by omega), h2⟩

theorem natParseList?_natToDigits (n : Nat) :
    natParseList? (natToDigits n) = some n := by
  obtain ⟨c, rest, hc⟩ := List.exists_cons_of_ne_nil (natToDigits_ne_nil n)
  rw [hc]
  show digitsToNat? 0 (c :: rest) = some n
  rw [← hc, digitsToNat?_natToDigits]
  simp

theorem intParseList?_intPrintList (i : Int) :
    intParseList? (intPrintList i) = some i := by
  unfold intPrintList
  by_cases h : i < 0
  · rw [if_pos h]
    have h1 : intParseList? ('-' :: natToDigits i.natAbs) =
        (natParseList? (natToDigits i.natAbs)).map (fun n => -(n : Int)) := by
      simp [intParseList?]
    rw [h1, natParseList?_natToDigits]
    show some (-(i.natAbs : Int)) = some i
    congr 1
    have hA := Int.natAbs_eq i
    omega
  · rw [if_neg h]
    obtain ⟨c, rest, hc⟩ :=
      List.exists_cons_of_ne_nil (natToDigits_ne_nil i.natAbs)
    rw [hc]
    obtain ⟨d, hd, hcd⟩ := natToDigits_all_digits i.natAbs c
      (by rw [hc]; exact List.mem_cons_self c rest)
    have hne : c ≠ '-' := hcd ▸ (digitChar_not_special d hd).1
    simp only [intParseList?, if_neg hne]
    rw [← hc, natParseList?_natToDigits]
    show some ((i.natAbs : Int)) = some i
    congr 1
    have hA := Int.natAbs_eq i
    omega

theorem intParse?_intPrint (i : Int) : intParse? (intPrint i) = some i :=
  intParseList?_intPrintList i

theorem intPrintList_mem (i : Int) :
    ∀ c ∈ intPrintList i, c = '-' ∨ ∃ d, d < 10 ∧ c = digitChar d := by
  intro c hc
  unfold intPrintList at hc
  by_cases h : i < 0
  · rw [if_pos h] at hc
    rcases List.mem_cons.mp hc with h1 | h2
    · exact Or.inl h1
    · exact Or.inr (natToDigits_all_digits _ c h2)
  · rw [if_neg h] at hc
    exact Or.inr (natToDigits_all_digits _ c hc)

theorem intPrintList_ne_nil (i : Int) : intPrintList i ≠ [] := by
  unfold intPrintList
  split
  · simp
  · exact natToDigits_ne_nil _

/-! ## Lemmas about `str.split` -/

theorem splitOnChar_ne_nil (sep : Char) (l : List Char) :
    splitOnChar sep l ≠ [] := by
  induction l with
  | nil => simp [splitOnChar]
  | cons c rest ih =>
    simp only [splitOnChar]
    split
    · simp
    · cases h : splitOnChar sep rest <;> simp

theorem splitOnChar_of_not_mem (sep : Char) (l : List Char)
    (h : sep ∉ l) : splitOnChar sep l = [l] := by
  induction l with
  | nil => rfl
  | cons c rest ih =>
    simp only [List.mem_cons, not_or] at h
    have hcs : c ≠ sep := fun hc => h.1 hc.symm
    simp only [splitOnChar, if_neg hcs, ih h.2]

theorem splitOnChar_append (sep : Char) (l1 l2 : List Char)
    (h : sep ∉ l1) :
    splitOnChar sep (l1 ++ sep :: l2) = l1 :: splitOnChar sep l2 := by
  induction l1 with
  | nil => simp [splitOnChar]
  | cons c rest ih =>
    simp only [List.mem_cons, not_or] at h
    have hcs : c ≠ sep := fun hc => h.1 hc.symm
    simp only [List.cons_append, splitOnChar, List.append_eq,
      if_neg hcs, ih h.2]

theorem eq_not_mem_intPrintList (n : Int) : '=' ∉ intPrintList n := by
  intro hmem
  rcases intPrintList_mem n '=' hmem with h | ⟨d, hd, hc⟩
  · exact absurd h (by decide)
  · exact (digitChar_not_special d hd).2.1 hc.symm

/-- Claim C7 (counterexample): the round trip fails as universally
stated — for key `"x"` and the string result `"a=b"`, the master path
encodes `"x=sa=b"`, which decodes to `("x", "a")`, not `("x", "a=b")`. -/
theorem C7_payload_roundtrip_counterexample :
    parse_ensure_display_value
        (encode_ensure_display (some "x") (some (PyValue.vs "a=b"))) =
      Except.ok ("x", some (PyValue.vs "a")) ∧
    some (PyValue.vs "a") ≠ some (PyValue.vs "a=b") := by
  constructor
  · rfl
  · decide

/-- Claim C7 (amended): for every key name containing no `'='` and
every result value that is a float (modelled by its text, containing no
`'='`), an integer, a string containing no `'='`, or `None`, decoding
via `parse_ensure_display_value` the payload that the master path of
`ensure_display` encodes for that key and result yields back exactly
the pair `(key, result)`; in particular a `None` result encodes to the
bare key followed by `'='` with no value segment and decodes to
`(key, None)`. -/
theorem C7_payload_roundtrip (key : String) (result : Option PyValue)
    (hkey : '=' ∉ key.data)
    (hres : match result with
      | none => True
      | some (.vi _) => True
      | some (.vs s) => '=' ∉ s.data
      | some (.vf t) => '=' ∉ t.data) :
    parse_ensure_display_value (encode_ensure_display (some key) result) =
      .ok (key, result) := by
  cases result with
  | none =>
    have hsplit : splitOnChar '=' (key.data ++ '=' :: ([] : List Char)) =
        [key.data, []] := by
      rw [splitOnChar_append '=' key.data [] hkey]
      rfl
    show parse_ensure_display_value (String.mk (key.data ++ '=' :: [])) = _
    unfold parse_ensure_display_value
    simp only [hsplit]
  | some v =>
    cases v with
    | vi n =>
      have htail : '=' ∉ 'i' :: intPrintList n := by
        simp only [List.mem_cons, not_or]
        exact ⟨by decide, eq_not_mem_intPrintList n⟩
      have hsplit : splitOnChar '=' (key.data ++ '=' :: ('i' :: intPrintList n)) =
          [key.data, 'i' :: intPrintList n] := by
        rw [splitOnChar_append '=' key.data _ hkey,
          splitOnChar_of_not_mem '=' _ htail]
      show parse_ensure_display_value
          (String.mk (key.data ++ '=' :: 'i' :: intPrintList n)) = _
      unfold parse_ensure_display_value
      simp only [hsplit, if_neg (by decide : ¬ ('i' = 'f')), if_pos rfl,
        if_true, intParseList?_intPrintList]
    | vs s =>
      have hs : '=' ∉ s.data := hres
      have htail : '=' ∉ 's' :: s.data := by
        simp only [List.mem_cons, not_or]
        exact ⟨by decide, hs⟩
      have hsplit : splitOnChar '=' (key.data ++ '=' :: ('s' :: s.data)) =
          [key.data, 's' :: s.data] := by
        rw [splitOnChar_append '=' key.data _ hkey,
          splitOnChar_of_not_mem '=' _ htail]
      show parse_ensure_display_value
          (String.mk (key.data ++ '=' :: 's' :: s.data)) = _
      unfold parse_ensure_display_value
      simp only [hsplit, if_neg (by decide : ¬ ('s' = 'f')),
        if_neg (by decide : ¬ ('s' = 'i')), if_pos rfl, if_true]
    | vf t =>
      have ht : '=' ∉ t.data := hres
      have htail : '=' ∉ 'f' :: t.data := by
        simp only [List.mem_cons, not_or]
        exact ⟨by decide, ht⟩
      have hsplit : splitOnChar '=' (key.data ++ '=' :: ('f' :: t.data)) =
          [key.data, 'f' :: t.data] := by
        rw [splitOnChar_append '=' key.data _ hkey,
          splitOnChar_of_not_mem '=' _ htail]
      show parse_ensure_display_value
          (String.mk (key.data ++ '=' :: 'f' :: t.data)) = _
      unfold parse_ensure_display_value
      simp only [hsplit, if_pos rfl, if_true]

/-- Claim C7 (witness): the amended round trip at the concrete inputs
key `"x"` with result `None` and key `"y"` with integer result `-7`. -/
theorem C7_payload_roundtrip_witness :
    parse_ensure_display_value (encode_ensure_display (some "x") none) =
      .ok ("x", none) ∧
    parse_ensure_display_value
        (encode_ensure_display (some "y") (some (PyValue.vi (-7)))) =
      .ok ("y", some (PyValue.vi (-7))) :=
  ⟨C7_payload_roundtrip "x" none (by decide) (by trivial),
   C7_payload_roundtrip "y" (some (PyValue.vi (-7))) (by decide) (by trivial)⟩

theorem envLookup_envSet (env : List (String × Option PyValue))
    (k : String) (v : Option PyValue) :
    envLookup (envSet env k v) k = some v := by
  induction env with
  | nil => simp [envSet, envLookup]
  | cons p rest ih =>
    by_cases h : p.1 = k
    · simp [envSet, envLookup, h]
    · simp [envSet, envLookup, h, ih]

/-- Claim C10: the ENSURE_DISPLAY branch of `parse_bot_com` evicts the
master via `set.remove`, which raises `KeyError` unless the pointer's
id is in `alive_instances`; the LET_MASTER branch sets the pointer
without adding the sender to the membership set, so the error branch is
reachable: from the initial state, LET_MASTER from instance 5 followed
by ENSURE_DISPLAY from instance 7 raises `KeyError`. -/
theorem C10_ensure_eviction_keyerror :
    (parse_bot_com ⟨1, 5, fun _ => none⟩ 0 ComState.init 5
        .letmaster "" false).s.master_instance = some 5 ∧
    (parse_bot_com ⟨1, 5, fun _ => none⟩ 0 ComState.init 5
        .letmaster "" false).s.alive_instances = ∅ ∧
    (parse_bot_com ⟨1, 5, fun _ => none⟩ 0
        (parse_bot_com ⟨1, 5, fun _ => none⟩ 0 ComState.init 5
          .letmaster "" false).s
        7 .ensure "" false).err = some PyErr.keyError := by
  refine ⟨rfl, by decide, by decide⟩

/-- Claim C9: an inbound bot-channel message whose content does not
split into exactly four slash-separated fields is logged and dropped by
the `on_message` handler: no exception, no coordination-state change,
no side effect. -/
theorem C9_malformed_envelope (P : Params) (now : Int) (s : ComState)
    (content : String) (attachment : Bool)
    (h : (splitOnChar '/' content.data).length ≠ 4) :
    on_message P now s content attachment = ⟨s, [], none⟩ := by
  unfold on_message
  rw [if_pos h]

/-- Claim C9 (witness): the content `"abc"` splits into one field and
is dropped without touching the initial state. -/
theorem C9_malformed_envelope_witness :
    (splitOnChar '/' ("abc" : String).data).length ≠ 4 ∧
    on_message ⟨1, 5, fun _ => none⟩ 0 ComState.init "abc" false =
      ⟨ComState.init, [], none⟩ :=
  ⟨by decide,
   C9_malformed_envelope ⟨1, 5, fun _ => none⟩ 0 ComState.init "abc" false
     (by decide)⟩

/-- Claim C3: on an instance whose `im_master` flag is true,
`ensure_display` awaits the wrapped action exactly once and sends
exactly one ENSURE_DISPLAY broadcast, synchronously (the trace is
exactly the action event followed by the send event), raising nothing;
the payload is the encoding of the action's result under `return_name`,
the result is bound under `return_name` in local state, and in
particular for `return_name = "x"` and integer result `42` the payload
is `"x=i42"` and the binding of `x` is `42`. -/
theorem C3_master_path (P : Params) (now : Int) (s : ComState) (a : Nat)
    (args : List PyObj) (window : Int) (return_name : Option String)
    (h : s.im_master = true) :
    (ensure_display P now s (.callable a) args window return_name).err =
      none ∧
    (ensure_display P now s (.callable a) args window return_name).trace =
      [Event.act a,
       Event.send ⟨P.botId, -1, .ensure,
         encode_ensure_display return_name (P.actRes a), false⟩] ∧
    (∀ name, return_name = some name →
      envLookup
          (ensure_display P now s (.callable a) args window return_name).s.env
          name =
        some (P.actRes a)) ∧
    (return_name = some "x" → P.actRes a = some (PyValue.vi 42) →
      encode_ensure_display return_name (P.actRes a) = "x=i42") := by
  refine ⟨?_, ?_, ?_, ?_⟩
  · simp [ensure_display, h]
  · simp [ensure_display, h]
  · intro name hname
    subst hname
    simp [ensure_display, h, envLookup_envSet]
  · intro h1 h2
    subst h1
    rw [h2]
    decide

/-- Claim C3 (witness): concrete master instance, action returning the
integer 42, `return_name = "x"`. -/
theorem C3_master_path_witness :
    ({ ComState.init with im_master := true } : ComState).im_master = true ∧
    (ensure_display ⟨1, 5, fun _ => some (PyValue.vi 42)⟩ 0
        { ComState.init with im_master := true } (.callable 0) [] 2
        (some "x")).trace =
      [Event.act 0, Event.send ⟨1, -1, .ensure, "x=i42", false⟩] ∧
    envLookup
        (ensure_display ⟨1, 5, fun _ => some (PyValue.vi 42)⟩ 0
          { ComState.init with im_master := true } (.callable 0) [] 2
          (some "x")).s.env "x" =
      some (some (PyValue.vi 42)) := by
  have h := C3_master_path ⟨1, 5, fun _ => some (PyValue.vi 42)⟩ 0
    { ComState.init with im_master := true } 0 [] 2 (some "x") rfl
  refine ⟨rfl, ?_, ?_⟩
  · rw [h.2.1, h.2.2.2 rfl rfl]
  · exact h.2.2.1 "x" rfl

/-- Claim C8: `on_message` (record) purges eagerly — after every call,
no queue of any kind holds an entry older than `MAX_AGE_SECONDS`
before the call time; and `got_message` (seen_within) returns false
whenever every entry of the queried kind is at least `window` seconds
old, so an entry inserted more than `MAX_AGE` ago can never satisfy a
window that does not exceed the elapsed time. -/
theorem C8_hub_purge :
    (∀ (hub : MessageHub) (now : Int) (t : MessageType) (msg : String)
       (t2 : MessageType), ∀ m ∈ (hub.on_message now t msg).message_queues t2,
       ¬ (m.timestamp < now - MAX_AGE_SECONDS)) ∧
    (∀ (hub : MessageHub) (now : Int) (w : Int) (t : MessageType)
       (rn : Option String),
       (∀ m ∈ hub.message_queues t, w ≤ now - m.timestamp) →
       (rn.isSome → t = .ensure) →
       hub.got_message now t w rn = .ok false) := by
  constructor
  · intro hub now t msg t2 m hm
    simp only [MessageHub.on_message, List.mem_filter,
      decide_eq_true_eq] at hm
    linarith [hm.2]
  · intro hub now w t rn hold hass
    have hfil : (hub.message_queues t).filter
        (fun m => decide (now - w < m.timestamp)) = [] := by
      rw [List.filter_eq_nil_iff]
      intro m hm
      have h1 := hold m hm
      simp only [decide_eq_true_eq, not_lt]
      linarith
    cases rn with
    | none =>
      simp only [MessageHub.got_message, hfil, List.length_nil]
      rfl
    | some name =>
      have ht : t = .ensure := hass rfl
      subst ht
      simp only [MessageHub.got_message, hfil, if_pos rfl]
      rfl

/-- Claim C8 (witness): a fresh insert at time 400 is not older than
`MAX_AGE` before 400, and a hub whose only ENSURE_DISPLAY entry is 400
seconds old answers false for a 2-second window. -/
theorem C8_hub_purge_witness :
    ¬ ((⟨400, "p"⟩ : Message).timestamp < 400 - MAX_AGE_SECONDS) ∧
    (∀ m ∈ (⟨fun t => if t = .ensure then [⟨0, "k=i1"⟩] else []⟩ :
        MessageHub).message_queues .ensure, (2 : Int) ≤ 400 - m.timestamp) ∧
    (⟨fun t => if t = .ensure then [⟨0, "k=i1"⟩] else []⟩ :
        MessageHub).got_message 400 .ensure 2 none = .ok false := by
  refine ⟨?_, by decide, ?_⟩
  · exact C8_hub_purge.1 ⟨fun _ => []⟩ 400 .ensure "p" .ensure ⟨400, "p"⟩
      (by decide)
  · exact C8_hub_purge.2
      ⟨fun t => if t = .ensure then [⟨0, "k=i1"⟩] else []⟩ 400 2 .ensure none
      (by decide) (by decide)

theorem intPrintList_getLast_ne_plus (v : Int) (c : Char)
    (h : (intPrintList v).getLast? = some c) : c ≠ '+' := by
  have hne := intPrintList_ne_nil v
  obtain ⟨_, hc⟩ := List.mem_getLast?_eq_getLast h
  subst hc
  rcases intPrintList_mem v _ (List.getLast_mem hne) with h1 | ⟨d, hd, h2⟩
  · rw [h1]; decide
  · rw [h2]; exact (digitChar_not_special d hd).2.2

/-- Claim C5: receiving CONNECT_ACK with payload `<version>+` (master
marker) cancels every pending callback — in particular the
self-promotion timer — empties the callback list, sets the master
pointer to the sender, and adds both the local id and the sender id to
membership; receiving CONNECT_ACK with payload `<version>` (no marker,
e.g. the `"5"` of the reply `"2/1/connectack/5"`) cancels nothing,
keeps the callback list and master pointer unchanged, and adds only the
sender to membership. -/
theorem C5_connect_ack (P : Params) (now : Int) (s : ComState)
    (from_id : Int) (v : Int) (att : Bool) :
    ((parse_bot_com P now s from_id .connectack (intPrint v ++ "+") att).trace =
        s.callbacks.map Event.cancelCb ∧
     (parse_bot_com P now s from_id .connectack (intPrint v ++ "+") att).s.callbacks =
        [] ∧
     (parse_bot_com P now s from_id .connectack (intPrint v ++ "+") att).s.master_instance =
        some from_id ∧
     (parse_bot_com P now s from_id .connectack (intPrint v ++ "+") att).s.alive_instances =
        insert from_id (insert P.botId s.alive_instances) ∧
     (parse_bot_com P now s from_id .connectack (intPrint v ++ "+") att).err =
        none) ∧
    ((parse_bot_com P now s from_id .connectack (intPrint v) att).trace = [] ∧
     (parse_bot_com P now s from_id .connectack (intPrint v) att).s.callbacks =
        s.callbacks ∧
     (parse_bot_com P now s from_id .connectack (intPrint v) att).s.master_instance =
        s.master_instance ∧
     (parse_bot_com P now s from_id .connectack (intPrint v) att).s.alive_instances =
        insert from_id s.alive_instances ∧
     (parse_bot_com P now s from_id .connectack (intPrint v) att).err = none) := by
  constructor
  · have hdata : (intPrint v ++ "+").data = intPrintList v ++ ['+'] := by
      rw [String.data_append]
      rfl
    have hlast : (intPrint v ++ "+").data.getLast? = some '+' := by
      rw [hdata]
      exact List.getLast?_concat _
    have hdrop : (intPrint v ++ "+").data.dropLast = intPrintList v := by
      rw [hdata]
      exact List.dropLast_concat
    have hparse : intParse? (String.mk (intPrintList v)) = some v :=
      intParse?_intPrint v
    have hparse2 : intParse? (String.mk (intPrint v).data) = some v :=
      intParse?_intPrint v
    simp [parse_bot_com, hlast, hdrop, hparse, hparse2]
  · have hne := intPrintList_ne_nil v
    have hlast : (intPrint v).data.getLast? =
        some ((intPrintList v).getLast hne) :=
      List.getLast?_eq_getLast_of_ne_nil hne
    have hcne : (intPrintList v).getLast hne ≠ '+' :=
      intPrintList_getLast_ne_plus v _ hlast
    have hparse : intParse? (intPrint v) = some v := intParse?_intPrint v
    simp [parse_bot_com, hlast, hcne, hparse]

theorem findEnsureName_ok_iff (name : String) (l : List Message) (b : Bool)
    (h : findEnsureName name l = .ok b) :
    b = true ↔ ∃ m ∈ l, m.message ≠ "" ∧
      (parse_ensure_display_value m.message).toOption.map Prod.fst =
        some name := by
  induction l with
  | nil =>
    simp only [findEnsureName, Except.ok.injEq] at h
    subst h
    simp
  | cons m rest ih =>
    rw [findEnsureName] at h
    by_cases hm : m.message = ""
    · rw [if_pos hm] at h
      rw [ih h]
      constructor
      · rintro ⟨x, hx, hc⟩
        exact ⟨x, List.mem_cons_of_mem m hx, hc⟩
      · rintro ⟨x, hx, hc⟩
        rcases List.mem_cons.mp hx with rfl | hx2
        · exact (hc.1 hm).elim
        · exact ⟨x, hx2, hc⟩
    · rw [if_neg hm] at h
      cases hp : parse_ensure_display_value m.message with
      | error e =>
        simp only [hp] at h
        exact absurd h (by simp)
      | ok kv =>
        simp only [hp] at h
        by_cases hk : kv.1 = name
        · rw [if_pos hk] at h
          simp only [Except.ok.injEq] at h
          subst h
          simp only [true_iff]
          refine ⟨m, List.mem_cons_self m rest, hm, ?_⟩
          rw [hp]
          show some kv.1 = some name
          rw [hk]
        · rw [if_neg hk] at h
          rw [ih h]
          constructor
          · rintro ⟨x, hx, hc⟩
            exact ⟨x, List.mem_cons_of_mem m hx, hc⟩
          · rintro ⟨x, hx, hc⟩
            rcases List.mem_cons.mp hx with rfl | hx2
            · exfalso
              apply hk
              have hkey := hc.2
              rw [hp] at hkey
              exact Option.some.inj hkey
            · exact ⟨x, hx2, hc⟩

theorem got_message_ok_iff (hub : MessageHub) (now : Int) (w : Int)
    (rn : Option String) (b : Bool)
    (h : hub.got_message now .ensure w rn = .ok b) :
    b = true ↔ specSeenWithin hub now w rn := by
  cases rn with
  | none =>
    simp only [MessageHub.got_message, Except.ok.injEq] at h
    subst h
    simp only [decide_eq_true_eq, specSeenWithin]
    constructor
    · intro hlen
      obtain ⟨m, hm⟩ := List.exists_mem_of_length_pos hlen
      have hmf := List.mem_filter.mp hm
      exact ⟨m, hmf.1, by simpa using hmf.2, trivial⟩
    · rintro ⟨m, hmem, hlt, -⟩
      exact List.length_pos_of_mem
        (List.mem_filter.mpr ⟨hmem, decide_eq_true hlt⟩)
  | some name =>
    simp only [MessageHub.got_message, if_pos rfl] at h
    rw [findEnsureName_ok_iff name _ b h]
    unfold specSeenWithin
    constructor
    · rintro ⟨m, hmem, hmsg, hkey⟩
      have hmf := List.mem_filter.mp hmem
      exact ⟨m, hmf.1, by simpa using hmf.2, hmsg, hkey⟩
    · rintro ⟨m, hmem, hlt, hkm⟩
      have hmem2 : m ∈ (hub.message_queues .ensure).filter
          (fun m => decide (now - w < m.timestamp)) :=
        List.mem_filter.mpr ⟨hmem, decide_eq_true hlt⟩
      exact ⟨m, hmem2, hkm.1, hkm.2⟩

/-- Claim C6: on an instance whose `im_master` flag is false,
`ensure_display` performs no side effect (empty trace, so the wrapped
action is not executed), and — provided the hub scan raises nothing — a
backup timed callback of delay `window` storing `(self, func, *args)`
is appended to the pending-callback list if and only if the Message Hub
holds no ENSURE_DISPLAY entry with timestamp within `window` seconds of
now (restricted, when `return_name` is given, to entries with non-empty
payload whose decoded key equals `return_name`); if such an entry
exists, the call changes nothing. -/
theorem C6_follower_path (P : Params) (now : Int) (s : ComState)
    (func : PyObj) (args : List PyObj) (window : Int)
    (return_name : Option String)
    (h : s.im_master = false)
    (herr : (ensure_display P now s func args window return_name).err =
      none) :
    (ensure_display P now s func args window return_name).trace = [] ∧
    ((ensure_display P now s func args window return_name).s.callbacks =
        s.callbacks ++
          [Callback.backup (PyObj.comState :: func :: args) window
            return_name] ↔
      ¬ specSeenWithin s.message_hub now window return_name) ∧
    (specSeenWithin s.message_hub now window return_name →
      (ensure_display P now s func args window return_name).s = s) := by
  cases hg : s.message_hub.got_message now .ensure window return_name with
  | error e =>
    exfalso
    have hbad : (ensure_display P now s func args window return_name).err =
        some e := by
      unfold ensure_display
      simp [h, hg]
    rw [hbad] at herr
    cases herr
  | ok b =>
    have hiff := got_message_ok_iff s.message_hub now window return_name b hg
    cases b with
    | true =>
      have hseen := hiff.mp rfl
      have hres : ensure_display P now s func args window return_name =
          ⟨s, [], none⟩ := by
        unfold ensure_display
        simp [h, hg]
      rw [hres]
      refine ⟨rfl, ?_, fun _ => rfl⟩
      constructor
      · intro hcb
        have hlen := congrArg List.length hcb
        simp at hlen
      · intro hns
        exact absurd hseen hns
    | false =>
      have hns : ¬ specSeenWithin s.message_hub now window return_name :=
        fun hs => absurd (hiff.mpr hs) (by simp)
      have hres : ensure_display P now s func args window return_name =
          ⟨{ s with callbacks := s.callbacks ++
              [Callback.backup (PyObj.comState :: func :: args) window
                return_name] }, [], none⟩ := by
        unfold ensure_display
        simp [h, hg]
      rw [hres]
      exact ⟨rfl, ⟨fun _ => hns, fun _ => rfl⟩, fun hs => absurd hs hns⟩

/-- Claim C6 (witness): a fresh follower with an empty hub appends the
backup callback. -/
theorem C6_follower_path_witness :
    ComState.init.im_master = false ∧
    (ensure_display ⟨1, 5, fun _ => none⟩ 0 ComState.init (.callable 0) []
        2 none).err = none ∧
    ((ensure_display ⟨1, 5, fun _ => none⟩ 0 ComState.init (.callable 0) []
        2 none).s.callbacks =
      ComState.init.callbacks ++
        [Callback.backup [PyObj.comState, PyObj.callable 0] 2 none] ↔
      ¬ specSeenWithin ComState.init.message_hub 0 2 none) := by
  refine ⟨rfl, by decide, ?_⟩
  exact (C6_follower_path ⟨1, 5, fun _ => none⟩ 0 ComState.init
    (.callable 0) [] 2 none rfl (by decide)).2.1

theorem coordProj_connectack_idem (P : Params) (now1 now2 : Int)
    (s : ComState) (from_id : Int) (message : String) (att1 att2 : Bool) :
    coordProj (parse_bot_com P now2
        (parse_bot_com P now1 s from_id .connectack message att1).s
        from_id .connectack message att2).s =
      coordProj (parse_bot_com P now1 s from_id .connectack message att1).s := by
  cases hL : message.data.getLast? with
  | none => simp [parse_bot_com, hL]
  | some c =>
    by_cases hc : c = '+'
    · subst hc
      cases hp : intParse? (String.mk message.data.dropLast) with
      | none =>
        simp [parse_bot_com, hL, hp, coordProj, Finset.insert_idem]
      | some v =>
        simp [parse_bot_com, hL, hp, coordProj, Finset.insert_idem]
    · cases hp : intParse? message with
      | none => simp [parse_bot_com, hL, hc, hp, coordProj]
      | some v =>
        simp [parse_bot_com, hL, hc, hp, coordProj, Finset.insert_idem]

theorem coordProj_ensure_idem (P : Params) (now1 now2 : Int)
    (s : ComState) (from_id : Int) (message : String) (att1 att2 : Bool) :
    coordProj (parse_bot_com P now2
        (parse_bot_com P now1 s from_id .ensure message att1).s
        from_id .ensure message att2).s =
      coordProj (parse_bot_com P now1 s from_id .ensure message att1).s := by
  by_cases hm : message = ""
  · subst hm
    cases hMa : s.master_instance with
    | none => simp [parse_bot_com, coordProj, hMa]
    | some m =>
      by_cases hmf : m = from_id
      · subst hmf
        simp [parse_bot_com, coordProj, hMa]
      · by_cases hmem : m ∈ s.alive_instances
        · simp [parse_bot_com, coordProj, hMa, hmf, hmem, pyRemove]
        · simp [parse_bot_com, coordProj, hMa, hmf, hmem, pyRemove]
  · cases hp : parse_ensure_display_value message with
    | error e => simp [parse_bot_com, coordProj, hm, hp]
    | ok kv =>
      cases hMa : s.master_instance with
      | none => simp [parse_bot_com, coordProj, hm, hp, hMa]
      | some m =>
        by_cases hmf : m = from_id
        · subst hmf
          simp [parse_bot_com, coordProj, hm, hp, hMa]
        · by_cases hmem : m ∈ s.alive_instances
          · simp [parse_bot_com, coordProj, hm, hp, hMa, hmf, hmem, pyRemove]
          · simp [parse_bot_com, coordProj, hm, hp, hMa, hmf, hmem, pyRemove]

/-- Claim C4: delivering the same CONNECT_ACK envelope twice through
`parse_bot_com` leaves the coordination state (membership set, master
pointer, `im_master`, callback list) exactly as one delivery does, and
likewise for the same ENSURE_DISPLAY envelope — including when the
handler raises, since the mutations performed before the raise are also
idempotent. -/
theorem C4_idempotent_redelivery (P : Params) (now1 now2 : Int)
    (s : ComState) (from_id : Int) (message : String) (att1 att2 : Bool) :
    coordProj (parse_bot_com P now2
        (parse_bot_com P now1 s from_id .connectack message att1).s
        from_id .connectack message att2).s =
      coordProj (parse_bot_com P now1 s from_id .connectack message att1).s ∧
    coordProj (parse_bot_com P now2
        (parse_bot_com P now1 s from_id .ensure message att1).s
        from_id .ensure message att2).s =
      coordProj (parse_bot_com P now1 s from_id .ensure message att1).s :=
  ⟨coordProj_connectack_idem P now1 now2 s from_id message att1 att2,
   coordProj_ensure_idem P now1 now2 s from_id message att1 att2⟩

theorem broadcastsLetMaster_append (t1 t2 : List Event) :
    broadcastsLetMaster (t1 ++ t2) =
      (broadcastsLetMaster t1 || broadcastsLetMaster t2) := by
  simp [broadcastsLetMaster, List.any_append]

theorem ensure_display_preserves (P : Params) (now : Int) (s : ComState)
    (func : PyObj) (args : List PyObj) (window : Int)
    (rn : Option String) :
    (ensure_display P now s func args window rn).s.alive_instances =
      s.alive_instances ∧
    (ensure_display P now s func args window rn).s.master_instance =
      s.master_instance ∧
    (ensure_display P now s func args window rn).s.im_master =
      s.im_master ∧
    (ensure_display P now s func args window rn).s.is_master_timeout =
      s.is_master_timeout ∧
    broadcastsLetMaster (ensure_display P now s func args window rn).trace =
      false := by
  by_cases hm : s.im_master = true
  · cases func with
    | callable a =>
      cases rn with
      | none => simp [ensure_display, hm, broadcastsLetMaster]
      | some name => simp [ensure_display, hm, broadcastsLetMaster]
    | comState => simp [ensure_display, hm, broadcastsLetMaster]
    | arg v => simp [ensure_display, hm, broadcastsLetMaster]
  · cases hg : s.message_hub.got_message now .ensure window rn with
    | error e => simp [ensure_display, hm, hg, broadcastsLetMaster]
    | ok b =>
      cases b with
      | true => simp [ensure_display, hm, hg, broadcastsLetMaster]
      | false => simp [ensure_display, hm, hg, broadcastsLetMaster]

theorem coordRun_preserves_of_not_timeout (P : Params) (now : Int) :
    ∀ (fuel : Nat) (s : ComState) (c : CoordCall),
      s.is_master_timeout = false →
      (coordRun P now fuel s c).s.alive_instances = s.alive_instances ∧
      (coordRun P now fuel s c).s.master_instance = s.master_instance ∧
      (coordRun P now fuel s c).s.im_master = s.im_master ∧
      (coordRun P now fuel s c).s.is_master_timeout = false ∧
      broadcastsLetMaster (coordRun P now fuel s c).trace = false := by
  intro fuel
  induction fuel with
  | zero =>
    intro s c h
    simp [coordRun, broadcastsLetMaster, h]
  | succ f ih =>
    intro s c h
    cases c with
    | edb func args w rn =>
      have hred : coordRun P now (f + 1) s (.edb func args w rn) =
          ensure_display P now s func args w rn := by
        simp [coordRun, h]
      rw [hred]
      have hp := ensure_display_preserves P now s func args w rn
      exact ⟨hp.1, hp.2.1, hp.2.2.1, hp.2.2.2.1.trans h, hp.2.2.2.2⟩
    | drainLoop i =>
      by_cases hi : i < s.callbacks.length
      · have hred : coordRun P now (f + 1) s (.drainLoop i) =
            (let cb := s.callbacks.get ⟨i, hi⟩
             let r := coordRun P now f s (.fire cb)
             match r.err with
             | some e => ⟨r.s, Event.cancelCb cb :: r.trace, some e⟩
             | none =>
               let r2 := coordRun P now f r.s (.drainLoop (i + 1))
               ⟨r2.s, Event.cancelCb cb :: (r.trace ++ r2.trace), r2.err⟩) := by
          simp [coordRun, hi]
        rw [hred]
        have h1 := ih s (.fire (s.callbacks.get ⟨i, hi⟩)) h
        cases hr : (coordRun P now f s (.fire (s.callbacks.get ⟨i, hi⟩))).err with
        | some e =>
          simp only [hr]
          exact ⟨h1.1, h1.2.1, h1.2.2.1, h1.2.2.2.1, by
            simp [broadcastsLetMaster] at h1 ⊢
            exact h1.2.2.2.2⟩
        | none =>
          simp only [hr]
          have h2 := ih (coordRun P now f s (.fire (s.callbacks.get ⟨i, hi⟩))).s
            (.drainLoop (i + 1)) h1.2.2.2.1
          refine ⟨h2.1.trans h1.1, h2.2.1.trans h1.2.1,
            h2.2.2.1.trans h1.2.2.1, h2.2.2.2.1, ?_⟩
          simp [broadcastsLetMaster] at h1 h2 ⊢
          exact ⟨h1.2.2.2.2, h2.2.2.2.2⟩
      · simp [coordRun, hi, broadcastsLetMaster, h]
    | fire cb =>
      cases cb with
      | promote => simp [coordRun, broadcastsLetMaster, h]
      | backup stored w rn =>
        cases stored with
        | nil => simp [coordRun, broadcastsLetMaster, h]
        | cons f0 rest =>
          have hred : coordRun P now (f + 1) s (.fire (.backup (f0 :: rest) w rn)) =
              coordRun P now f s (.edb f0 rest w rn) := by
            simp [coordRun]
          rw [hred]
          exact ih s (.edb f0 rest w rn) h

theorem parse_bot_com_timeout_eq (P : Params) (now : Int) (s : ComState)
    (from_id : Int) (t : MessageType) (message : String) (att : Bool) :
    (parse_bot_com P now s from_id t message att).s.is_master_timeout =
      s.is_master_timeout := by
  cases t with
  | connect =>
    cases hp : intParse? message with
    | none => simp [parse_bot_com, hp]
    | some v =>
      simp only [parse_bot_com, hp]
      split <;> rfl
  | connectack =>
    cases hL : message.data.getLast? with
    | none => simp [parse_bot_com, hL]
    | some c =>
      by_cases hc : c = '+'
      · subst hc
        cases hp : intParse? (String.mk message.data.dropLast) with
        | none => simp [parse_bot_com, hL, hp]
        | some v => simp [parse_bot_com, hL, hp]
      · cases hp : intParse? message with
        | none => simp [parse_bot_com, hL, hc, hp]
        | some v => simp [parse_bot_com, hL, hc, hp]
  | letmaster => simp [parse_bot_com]
  | ensure =>
    by_cases hm : message = ""
    · subst hm
      cases hMa : s.master_instance with
      | none => simp [parse_bot_com, hMa]
      | some m =>
        by_cases hmf : m = from_id
        · subst hmf
          simp [parse_bot_com, hMa]
        · by_cases hmem : m ∈ s.alive_instances
          · simp [parse_bot_com, hMa, hmf, hmem, pyRemove]
          · simp [parse_bot_com, hMa, hmf, hmem, pyRemove]
    · cases hp : parse_ensure_display_value message with
      | error e => simp [parse_bot_com, hm, hp]
      | ok kv =>
        cases hMa : s.master_instance with
        | none => simp [parse_bot_com, hm, hp, hMa]
        | some m =>
          by_cases hmf : m = from_id
          · subst hmf
            simp [parse_bot_com, hm, hp, hMa]
          · by_cases hmem : m ∈ s.alive_instances
            · simp [parse_bot_com, hm, hp, hMa, hmf, hmem, pyRemove]
            · simp [parse_bot_com, hm, hp, hMa, hmf, hmem, pyRemove]
  | senddb => cases att <;> simp [parse_bot_com]
  | senddback => simp [parse_bot_com]
  | sendws => cases att <;> simp [parse_bot_com]
  | sendwsack => simp [parse_bot_com]

/-- Claim C1 (code evaluated at the failing behaviour): the failover
guard `is_master_timeout` is `False` at construction, is left unchanged
by every inbound-envelope delivery, by `connect`, and by every
`ensure_display` call, and a backup callback that fires while the guard
is `False` — which is therefore always — takes the non-failover branch:
it never changes the master pointer, the membership set or the
`im_master` flag, never broadcasts LET_MASTER, and leaves the guard
`False`.  Hence a follower whose master has gone silent neither
observes a new master claim nor promotes itself when its backup
callback fires: the claimed failover liveness does not hold of the
code. -/
theorem C1_failover_guard_dead :
    ComState.init.is_master_timeout = false ∧
    (∀ (P : Params) (now : Int) (s : ComState) (from_id : Int)
       (t : MessageType) (message : String) (att : Bool),
      (parse_bot_com P now s from_id t message att).s.is_master_timeout =
        s.is_master_timeout) ∧
    (∀ (P : Params) (s : ComState),
      (connect P s).s.is_master_timeout = s.is_master_timeout) ∧
    (∀ (P : Params) (now : Int) (s : ComState) (func : PyObj)
       (args : List PyObj) (window : Int) (rn : Option String),
      (ensure_display P now s func args window rn).s.is_master_timeout =
        s.is_master_timeout) ∧
    (∀ (P : Params) (now : Int) (fuel : Nat) (s : ComState) (cb : Callback),
      s.is_master_timeout = false →
      (fireCallback P now fuel s cb).s.is_master_timeout = false ∧
      (fireCallback P now fuel s cb).s.master_instance =
        s.master_instance ∧
      (fireCallback P now fuel s cb).s.im_master = s.im_master ∧
      (fireCallback P now fuel s cb).s.alive_instances =
        s.alive_instances ∧
      broadcastsLetMaster (fireCallback P now fuel s cb).trace = false) := by
  refine ⟨rfl, parse_bot_com_timeout_eq, fun P s => rfl, ?_, ?_⟩
  · intro P now s func args window rn
    exact (ensure_display_preserves P now s func args window rn).2.2.2.1
  · intro P now fuel s cb h
    have hp := coordRun_preserves_of_not_timeout P now fuel s (.fire cb) h
    exact ⟨hp.2.2.2.1, hp.2.1, hp.2.2.1, hp.1, hp.2.2.2.2⟩

/-- Claim C1 (witness): a follower with a stale master pointer (id 2,
silent) and a pending backup callback; when the callback fires, the
master pointer is unchanged, the instance does not become master, no
LET_MASTER is broadcast, and the guard is still `False`. -/
theorem C1_failover_guard_dead_witness :
    ({ ComState.init with
        alive_instances := {1, 2}
        master_instance := some 2
        callbacks := [Callback.backup [PyObj.comState, PyObj.callable 0] 2 none] } :
      ComState).is_master_timeout = false ∧
    (fireCallback ⟨1, 5, fun _ => none⟩ 0 5
        { ComState.init with
            alive_instances := {1, 2}
            master_instance := some 2
            callbacks := [Callback.backup [PyObj.comState, PyObj.callable 0] 2 none] }
        (Callback.backup [PyObj.comState, PyObj.callable 0] 2 none)).s.master_instance =
      some 2 ∧
    (fireCallback ⟨1, 5, fun _ => none⟩ 0 5
        { ComState.init with
            alive_instances := {1, 2}
            master_instance := some 2
            callbacks := [Callback.backup [PyObj.comState, PyObj.callable 0] 2 none] }
        (Callback.backup [PyObj.comState, PyObj.callable 0] 2 none)).s.im_master =
      false ∧
    broadcastsLetMaster
      (fireCallback ⟨1, 5, fun _ => none⟩ 0 5
        { ComState.init with
            alive_instances := {1, 2}
            master_instance := some 2
            callbacks := [Callback.backup [PyObj.comState, PyObj.callable 0] 2 none] }
        (Callback.backup [PyObj.comState, PyObj.callable 0] 2 none)).trace =
      false := by
  have h := C1_failover_guard_dead.2.2.2.2 ⟨1, 5, fun _ => none⟩ 0 5
    { ComState.init with
        alive_instances := {1, 2}
        master_instance := some 2
        callbacks := [Callback.backup [PyObj.comState, PyObj.callable 0] 2 none] }
    (Callback.backup [PyObj.comState, PyObj.callable 0] 2 none) rfl
  exact ⟨rfl, h.2.1, h.2.2.1, h.2.2.2.2⟩

theorem failover_removed_fields (s s1 : ComState)
    (h : failover_removed s = .ok s1) :
    s1.master_instance = none ∧ s1.callbacks = s.callbacks ∧
    s1.im_master = s.im_master ∧
    s1.is_master_timeout = s.is_master_timeout := by
  unfold failover_removed at h
  cases hMa : s.master_instance with
  | none =>
    rw [hMa] at h
    cases hmx : pyMax s.alive_instances with
    | error e => rw [hmx] at h; cases h
    | ok mx =>
      rw [hmx] at h
      cases hrm : pyRemove s.alive_instances mx with
      | error e => simp only [hrm] at h; cases h
      | ok A =>
        simp only [hrm, Except.ok.injEq] at h
        subst h
        exact ⟨rfl, rfl, rfl, rfl⟩
  | some m =>
    rw [hMa] at h
    cases hrm : pyRemove s.alive_instances m with
    | error e => simp only [hrm] at h; cases h
    | ok A =>
      simp only [hrm, Except.ok.injEq] at h
      subst h
      exact ⟨rfl, rfl, rfl, rfl⟩

theorem coordRun_edb_timeout_step (P : Params) (now : Int) (fuel : Nat)
    (s s1 : ComState) (func : PyObj) (args : List PyObj) (window : Int)
    (rn : Option String)
    (h1 : s.is_master_timeout = true)
    (hrem : failover_removed s = .ok s1) :
    coordRun P now (fuel + 1) s (.edb func args window rn) =
      (match pyMax s1.alive_instances with
       | .error e => (⟨s1, [], some e⟩ : Step)
       | .ok mx2 =>
         let pr := if mx2 = P.botId then self_promote P s1 else (s1, [])
         let s3 := { pr.1 with is_master_timeout := false }
         let r := coordRun P now fuel s3 (.drainLoop 0)
         match r.err with
         | some e => ⟨r.s, pr.2 ++ r.trace, some e⟩
         | none => ⟨{ r.s with is_master_timeout := true }, pr.2 ++ r.trace,
             none⟩) := by
  simp only [coordRun, h1, if_true, hrem]

/-- Claim C2 (amended): when a backup callback fires while the failover
guard is set, the instance (1) removes the master pointer from the
membership set and clears the pointer if it is known, else removes the
numerically-largest member (`failover_removed`); (2) self-promotes —
sets itself master and broadcasts LET_MASTER — if and only if, after
that removal, the numerically-largest remaining member is its own id;
(3) then cancels and re-invokes every callback in the pending list
(including the entry for the callback currently firing) with the guard
cleared, so none of them re-enters the failover removal/promotion — the
final membership set, master pointer and `im_master` are exactly those
left by steps (1)-(2); and when the instance did promote in step (2)
and the head of the pending list is a backup callback, that
re-invocation reaches the master path of `ensure_display` with the
stored `ComState` in the function position and raises `TypeError`,
aborting the drain, rather than executing the remaining callbacks. -/
theorem C2_failover_procedure (P : Params) (now : Int) (fuel : Nat)
    (s s1 : ComState) (func : PyObj) (args : List PyObj) (window : Int)
    (rn : Option String) (mx : Int)
    (h1 : s.is_master_timeout = true)
    (hrem : failover_removed s = .ok s1)
    (hmax : pyMax s1.alive_instances = .ok mx) :
    ((∀ m, s.master_instance = some m →
        failover_removed s =
          Except.map
            (fun A => { s with alive_instances := A, master_instance := none })
            (pyRemove s.alive_instances m)) ∧
     (s.master_instance = none →
        failover_removed s =
          (pyMax s.alive_instances).bind (fun mx0 =>
            Except.map (fun A => { s with alive_instances := A })
              (pyRemove s.alive_instances mx0)))) ∧
    ((ensure_display_backup P now (fuel + 1) s func args window rn).s.alive_instances =
        s1.alive_instances ∧
     (ensure_display_backup P now (fuel + 1) s func args window rn).s.master_instance =
        (if mx = P.botId then some P.botId else none) ∧
     (ensure_display_backup P now (fuel + 1) s func args window rn).s.im_master =
        (if mx = P.botId then true else s.im_master) ∧
     (broadcastsLetMaster
        (ensure_display_backup P now (fuel + 1) s func args window rn).trace =
          true ↔
        mx = P.botId)) ∧
    (∀ (st : List PyObj) (w2 : Int) (rn2 : Option String),
      mx = P.botId → 3 ≤ fuel →
      s.callbacks.head? =
        some (Callback.backup (PyObj.comState :: st) w2 rn2) →
      (ensure_display_backup P now (fuel + 1) s func args window rn).err =
        some PyErr.typeError) := by
  have hf := failover_removed_fields s s1 hrem
  have hstep := coordRun_edb_timeout_step P now fuel s s1 func args window
    rn h1 hrem
  have hrun : ensure_display_backup P now (fuel + 1) s func args window rn =
      (let pr := if mx = P.botId then self_promote P s1 else (s1, [])
       let s3 := { pr.1 with is_master_timeout := false }
       let r := coordRun P now fuel s3 (.drainLoop 0)
       match r.err with
       | some e => ⟨r.s, pr.2 ++ r.trace, some e⟩
       | none => ⟨{ r.s with is_master_timeout := true }, pr.2 ++ r.trace,
           none⟩) := by
    show coordRun P now (fuel + 1) s (.edb func args window rn) = _
    rw [hstep]
    simp only [hmax]
  have hmem : mx ∈ s1.alive_instances := by
    unfold pyMax at hmax
    cases hM : s1.alive_instances.max with
    | bot => rw [hM] at hmax; cases hmax
    | coe m0 =>
      rw [hM] at hmax
      simp only [Except.ok.injEq] at hmax
      subst hmax
      exact Finset.mem_of_max hM
  refine ⟨⟨?_, ?_⟩, ?_, ?_⟩
  · intro m hm
    unfold failover_removed
    rw [hm]
    cases h2 : pyRemove s.alive_instances m <;> simp [Except.map, h2]
  · intro hm
    unfold failover_removed
    rw [hm]
    cases hmx0 : pyMax s.alive_instances with
    | error e => simp [Except.bind, hmx0]
    | ok mx0 =>
      cases h2 : pyRemove s.alive_instances mx0 <;>
        simp [Except.bind, Except.map, hmx0, h2]
  · rw [hrun]
    by_cases hmx : mx = P.botId
    · simp only [if_pos hmx, self_promote]
      have hins : insert P.botId s1.alive_instances = s1.alive_instances :=
        Finset.insert_eq_self.mpr (hmx ▸ hmem)
      have hpres := coordRun_preserves_of_not_timeout P now fuel
        { initialized := true, im_master := true,
          alive_instances := insert P.botId s1.alive_instances,
          master_instance := some P.botId, callbacks := s1.callbacks,
          message_hub := s1.message_hub, is_master_timeout := false,
          env := s1.env } (.drainLoop 0) rfl
      cases hr : (coordRun P now fuel
          { initialized := true, im_master := true,
            alive_instances := insert P.botId s1.alive_instances,
            master_instance := some P.botId, callbacks := s1.callbacks,
            message_hub := s1.message_hub, is_master_timeout := false,
            env := s1.env } (.drainLoop 0)).err with
      | some e =>
        simp only [hr] at hpres ⊢
        refine ⟨hpres.1.trans hins, hpres.2.1, hpres.2.2.1, ?_⟩
        rw [broadcastsLetMaster_append]
        simp [broadcastsLetMaster, hmx, hpres.2.2.2.2]
      | none =>
        simp only [hr] at hpres ⊢
        refine ⟨hpres.1.trans hins, hpres.2.1, hpres.2.2.1, ?_⟩
        rw [broadcastsLetMaster_append]
        simp [broadcastsLetMaster, hmx, hpres.2.2.2.2]
    · simp only [if_neg hmx]
      have hpres := coordRun_preserves_of_not_timeout P now fuel
        { s1 with is_master_timeout := false } (.drainLoop 0) rfl
      cases hr : (coordRun P now fuel { s1 with is_master_timeout := false }
          (.drainLoop 0)).err with
      | some e =>
        simp only [hr] at hpres ⊢
        refine ⟨hpres.1, hpres.2.1.trans hf.1, hpres.2.2.1.trans hf.2.2.1, ?_⟩
        rw [broadcastsLetMaster_append, hpres.2.2.2.2]
        simp [broadcastsLetMaster, hmx]
      | none =>
        simp only [hr] at hpres ⊢
        refine ⟨hpres.1, hpres.2.1.trans hf.1, hpres.2.2.1.trans hf.2.2.1, ?_⟩
        rw [broadcastsLetMaster_append, hpres.2.2.2.2]
        simp [broadcastsLetMaster, hmx]
  · intro st w2 rn2 hmx h3f hhead
    obtain ⟨k, rfl⟩ : ∃ k, fuel = k + 3 := ⟨fuel - 3, by omega⟩
    cases hcb : s.callbacks with
    | nil => rw [hcb] at hhead; cases hhead
    | cons c tl =>
      rw [hcb] at hhead
      simp only [List.head?_cons, Option.some.injEq] at hhead
      subst hhead
      have hcbs : s1.callbacks = Callback.backup (PyObj.comState :: st) w2 rn2 :: tl :=
        hf.2.1.trans hcb
      rw [hrun]
      simp only [if_pos hmx, self_promote]
      have hdrain : coordRun P now (k + 3)
          { initialized := true, im_master := true,
            alive_instances := insert P.botId s1.alive_instances,
            master_instance := some P.botId, callbacks := s1.callbacks,
            message_hub := s1.message_hub, is_master_timeout := false,
            env := s1.env } (.drainLoop 0) =
          ⟨{ initialized := true, im_master := true,
             alive_instances := insert P.botId s1.alive_instances,
             master_instance := some P.botId, callbacks := s1.callbacks,
             message_hub := s1.message_hub, is_master_timeout := false,
             env := s1.env },
           [Event.cancelCb (Callback.backup (PyObj.comState :: st) w2 rn2)],
           some PyErr.typeError⟩ := by
        simp [coordRun, ensure_display, hcbs]
      simp only [hdrain]

/-- Claim C2 (counterexample): a follower (id 1, members `{1, 2}`,
master pointer 2) whose failover guard is set fires its single pending
backup callback.  There is no *other* pending callback, so the claim
predicts the procedure completes after steps (1)-(2) without any
callback re-entering the failover path; instead the drain loop
re-invokes the entry of the very callback that is firing, which reaches
the master path (the instance has just promoted itself) with the stored
`ComState` in the function position and raises `TypeError`. -/
theorem C2_failover_counterexample :
    (fireCallback ⟨1, 5, fun _ => none⟩ 0 5
        { initialized := false, im_master := false, alive_instances := {1, 2},
          master_instance := some 2,
          callbacks := [Callback.backup [PyObj.comState, PyObj.callable 0] 2 none],
          message_hub := ⟨fun _ => []⟩, is_master_timeout := true, env := [] }
        (Callback.backup [PyObj.comState, PyObj.callable 0] 2 none)).err =
      some PyErr.typeError ∧
    (fireCallback ⟨1, 5, fun _ => none⟩ 0 5
        { initialized := false, im_master := false, alive_instances := {1, 2},
          master_instance := some 2,
          callbacks := [Callback.backup [PyObj.comState, PyObj.callable 0] 2 none],
          message_hub := ⟨fun _ => []⟩, is_master_timeout := true, env := [] }
        (Callback.backup [PyObj.comState, PyObj.callable 0] 2 none)).trace =
      [Event.send ⟨1, -1, .letmaster, "", false⟩,
       Event.cancelCb (Callback.backup [PyObj.comState, PyObj.callable 0] 2 none)] := by
  constructor
  · decide
  · decide

/-- Claim C2 (witness): the amended procedure at the same concrete
follower — eviction of master 2 from `{1, 2}`, promotion of id 1, and
the `TypeError` abort of the drain. -/
theorem C2_failover_procedure_witness :
    failover_removed
        { initialized := false, im_master := false, alive_instances := {1, 2},
          master_instance := some 2,
          callbacks := [Callback.backup [PyObj.comState, PyObj.callable 0] 2 none],
          message_hub := ⟨fun _ => []⟩, is_master_timeout := true, env := [] } =
      .ok { initialized := false, im_master := false, alive_instances := {1},
            master_instance := none,
            callbacks := [Callback.backup [PyObj.comState, PyObj.callable 0] 2 none],
            message_hub := ⟨fun _ => []⟩, is_master_timeout := true, env := [] } ∧
    (ensure_display_backup ⟨1, 5, fun _ => none⟩ 0 4
        { initialized := false, im_master := false, alive_instances := {1, 2},
          master_instance := some 2,
          callbacks := [Callback.backup [PyObj.comState, PyObj.callable 0] 2 none],
          message_hub := ⟨fun _ => []⟩, is_master_timeout := true, env := [] }
        PyObj.comState [PyObj.callable 0] 2 none).s.master_instance = some 1 ∧
    (ensure_display_backup ⟨1, 5, fun _ => none⟩ 0 4
        { initialized := false, im_master := false, alive_instances := {1, 2},
          master_instance := some 2,
          callbacks := [Callback.backup [PyObj.comState, PyObj.callable 0] 2 none],
          message_hub := ⟨fun _ => []⟩, is_master_timeout := true, env := [] }
        PyObj.comState [PyObj.callable 0] 2 none).err =
      some PyErr.typeError := by
  have h := C2_failover_procedure ⟨1, 5, fun _ => none⟩ 0 3
    { initialized := false, im_master := false, alive_instances := {1, 2},
      master_instance := some 2,
      callbacks := [Callback.backup [PyObj.comState, PyObj.callable 0] 2 none],
      message_hub := ⟨fun _ => []⟩, is_master_timeout := true, env := [] }
    { initialized := false, im_master := false, alive_instances := {1},
      master_instance := none,
      callbacks := [Callback.backup [PyObj.comState, PyObj.callable 0] 2 none],
      message_hub := ⟨fun _ => []⟩, is_master_timeout := true, env := [] }
    PyObj.comState [PyObj.callable 0] 2 none 1 rfl (by decide) (by decide)
  refine ⟨by decide, ?_, ?_⟩
  · have hm := h.2.1.2.1
    simpa using hm
  · exact h.2.2 [PyObj.callable 0] 2 none rfl (by decide) rfl
